import Mathlib

/-!
Shallow embedding of the Lightning client abstraction layer of
`ln-regtest-rs` (src/lib.rs, src/ln_client/cln_client.rs, src/cln_client.rs,
src/lnd_client.rs): the canonical invoice-status model, the bounded polling
loops `wait_chain_sync` / `wait_channels_active`, the balance aggregation of
`ListFunds` responses, and the status normalizers of both backends.
Machine integers (u64 amounts, i64 msat values) are modelled as `Nat` with
explicit wrap-around where the Rust types wrap.
-/

namespace LnRegtest

/-- Canonical invoice status, from `src/lib.rs` `enum InvoiceStatus`. -/
inductive InvoiceStatus where
  | Paid
  | Pending
  | Unpaid
  | Expired
  | Failed
deriving DecidableEq, Repr

/-! ## Bounded polling loop

Both `wait_chain_sync` and `wait_channels_active` (CLN and LND alike) share
the loop shape

    let mut count = 0;
    while count < 100 {
        if <check succeeds> { return Ok(()); }
        count += 1;
        sleep(Duration::from_secs(2)).await;
    }
    bail!(<timeout>)

`count` counts failed attempts, and since every iteration before a success
fails, the attempt performed when the counter equals `count` is attempt
number `count` (0-based).  `wait_from check count` returns `some i` when
attempt `i` is the first successful one, `none` on timeout, paired with the
total number of seconds slept. -/
def wait_from (check : Nat → Bool) (count : Nat) : Option Nat × Nat :=
  if count < 100 then
    if check count then (some count, 0)
    else
      let r := wait_from check (count + 1)
      (r.1, r.2 + 2)
  else (none, 0)
termination_by 100 - count
decreasing_by simp_wf; omega

/-- The loop entered with `count = 0`. -/
def wait_poll (check : Nat → Bool) : Option Nat × Nat :=
  wait_from check 0

/-! ## CLN chain-sync predicate (src/ln_client/cln_client.rs 342-357,
src/cln_client.rs 285-299) -/

/-- The fields of CLN's get-info response that `wait_chain_sync` inspects. -/
structure GetinfoResponse where
  warning_lightningd_sync : Option String
  warning_bitcoind_sync : Option String

/-- The per-attempt success condition of `ClnClient::wait_chain_sync`,
exactly as the source writes it:
`info.warning_lightningd_sync.is_none() || info.warning_bitcoind_sync.is_none()`. -/
def cln_chain_sync_check (info : GetinfoResponse) : Bool :=
  info.warning_lightningd_sync.isNone || info.warning_bitcoind_sync.isNone

/-- The chain-sync success condition as the spec words it: the predicate
holds when the node reports no outstanding lightningd-sync warning AND no
outstanding bitcoind-sync warning. -/
def chain_sync_check_spec (info : GetinfoResponse) : Bool :=
  info.warning_lightningd_sync.isNone && info.warning_bitcoind_sync.isNone

/-- `ClnClient::wait_chain_sync` over the stream of get-info responses the
node would return at each attempt. -/
def cln_wait_chain_sync (infos : Nat → GetinfoResponse) : Option Nat × Nat :=
  wait_poll (fun i => cln_chain_sync_check (infos i))

/-- The field of LND's get-info response that `wait_chain_sync` inspects
(src/lnd_client.rs 228-242). -/
structure LndGetInfoResponse where
  synced_to_chain : Bool

/-- `LndClient::wait_chain_sync` over the stream of get-info responses. -/
def lnd_wait_chain_sync (infos : Nat → LndGetInfoResponse) : Option Nat × Nat :=
  wait_poll (fun i => (infos i).synced_to_chain)

/-! ## Channel-activation predicate (src/ln_client/cln_client.rs 359-396,
src/lnd_client.rs 196-226) -/

/-- The field of a listed channel that `wait_channels_active` inspects. -/
structure ListchannelsChannel where
  active : Bool

/-- The `pending` list of `wait_channels_active`:
`channels.iter().filter(|c| !c.active)`.  For LND the same filtering is
requested server-side via `inactive_only: true`. -/
def channels_pending (channels : List ListchannelsChannel) :
    List ListchannelsChannel :=
  channels.filter (fun c => !c.active)

/-- The per-attempt success condition of `wait_channels_active`:
`pending.is_empty()`. -/
def channels_active_check (channels : List ListchannelsChannel) : Bool :=
  (channels_pending channels).isEmpty

/-- `wait_channels_active` over the stream of channel sets the node would
report at each attempt. -/
def wait_channels_active (sets : Nat → List ListchannelsChannel) :
    Option Nat × Nat :=
  wait_poll (fun i => channels_active_check (sets i))

/-! ## Balance aggregation (src/ln_client/cln_client.rs 216-266,
src/cln_client.rs 155-205; both bodies are identical) -/

/-- Status of an output in CLN's `ListFunds` response. -/
inductive ListfundsOutputsStatus where
  | UNCONFIRMED
  | IMMATURE
  | CONFIRMED
  | SPENT
deriving DecidableEq, Repr

/-- An output record of the `ListFunds` response; `amount_msat` is a u64
millisatoshi amount. -/
structure ListfundsOutput where
  amount_msat : Nat
  status : ListfundsOutputsStatus
deriving DecidableEq, Repr

/-- A channel record of the `ListFunds` response. -/
structure ListfundsChannel where
  our_amount_msat : Nat
deriving DecidableEq, Repr

/-- Canonical balance breakdown, all fields in millisatoshi. -/
structure Balance where
  on_chain_spendable : Nat
  on_chain_total : Nat
  ln : Nat
deriving DecidableEq, Repr

/-- One iteration of the `for output in funds_response.outputs` loop; the
accumulator is `(on_chain_total, on_chain_spendable)`.  The source adds
`Amount` values, a u64-msat newtype whose `+` is plain u64 arithmetic, so
every addition wraps modulo 2^64. -/
def balanceStep (acc : Nat × Nat) (output : ListfundsOutput) : Nat × Nat :=
  match output.status with
  | .UNCONFIRMED => ((acc.1 + output.amount_msat) % 2 ^ 64, acc.2)
  | .IMMATURE => ((acc.1 + output.amount_msat) % 2 ^ 64, acc.2)
  | .CONFIRMED => ((acc.1 + output.amount_msat) % 2 ^ 64,
      (acc.2 + output.amount_msat) % 2 ^ 64)
  | .SPENT => acc

/-- `ClnClient::balance`: fold the outputs, then sum the channel amounts
into `ln` (u64 addition, wrapping modulo 2^64). -/
def balance (outputs : List ListfundsOutput)
    (channels : List ListfundsChannel) : Balance :=
  let oc := outputs.foldl balanceStep (0, 0)
  let lnTotal := channels.foldl
    (fun a c => (a + c.our_amount_msat) % 2 ^ 64) 0
  { on_chain_spendable := oc.2, on_chain_total := oc.1, ln := lnTotal }

/-- The spec-side accumulation rule for `on_chain_total`: the mathematical
(unwrapped) sum of the amounts of all outputs whose status is not Spent. -/
def total_msat (outputs : List ListfundsOutput) : Nat :=
  ((outputs.filter (fun o => o.status != ListfundsOutputsStatus.SPENT)).map
    (fun o => o.amount_msat)).sum

/-- The spec-side accumulation rule for `on_chain_spendable`: the
mathematical (unwrapped) sum of the amounts of the Confirmed outputs. -/
def confirmed_msat (outputs : List ListfundsOutput) : Nat :=
  ((outputs.filter (fun o => o.status == ListfundsOutputsStatus.CONFIRMED)).map
    (fun o => o.amount_msat)).sum

/-! ## CLN incoming-invoice status lookup
(src/ln_client/cln_client.rs 398-430) -/

/-- Raw status of a CLN listed invoice. -/
inductive ListinvoicesInvoicesStatus where
  | UNPAID
  | EXPIRED
  | PAID
deriving DecidableEq, Repr

/-- An invoice record of CLN's `ListInvoices` response. -/
structure ListinvoicesInvoice where
  status : ListinvoicesInvoicesStatus
deriving DecidableEq, Repr

/-- The match arms normalizing a found CLN incoming invoice's raw status. -/
def cln_incoming_status_map (s : ListinvoicesInvoicesStatus) : InvoiceStatus :=
  match s with
  | .UNPAID => .Unpaid
  | .EXPIRED => .Expired
  | .PAID => .Paid

/-- `ClnClient::check_incoming_payment_status`, over the invoice list the
`ListInvoices` call (filtered by payment hash server-side) returned: the
first record's status is normalized; an empty list is
`bail!("Could not find invoice")`. -/
def check_incoming_payment_status (invoices : List ListinvoicesInvoice) :
    Except String InvoiceStatus :=
  match invoices.head? with
  | some invoice => .ok (cln_incoming_status_map invoice.status)
  | none => .error "Could not find invoice"

/-! ## CLN outgoing-payment status lookup
(src/ln_client/cln_client.rs 432-461) -/

/-- Raw status of a CLN listed pay attempt. -/
inductive ListpaysPaysStatus where
  | COMPLETE
  | PENDING
  | FAILED
deriving DecidableEq, Repr

/-- A pay record of CLN's `ListPays` response. -/
structure ListpaysPay where
  status : ListpaysPaysStatus
deriving DecidableEq, Repr

/-- The match arms normalizing a found CLN outgoing payment's raw status. -/
def cln_outgoing_status_map (s : ListpaysPaysStatus) : InvoiceStatus :=
  match s with
  | .COMPLETE => .Paid
  | .PENDING => .Pending
  | .FAILED => .Failed

/-- `ClnClient::check_outgoing_payment_status`, over the pay list the
`ListPays` call (filtered by payment hash server-side) returned: the first
record's status is normalized; an empty list yields `Ok(Unpaid)`. -/
def check_outgoing_payment_status (pays : List ListpaysPay) :
    Except String InvoiceStatus :=
  .ok (match pays.head? with
    | some pay => cln_outgoing_status_map pay.status
    | none => .Unpaid)

/-! ## LND status lookups (src/lnd_client.rs 244-315) -/

/-- The LND raw invoice/payment state code normalization shared by both
match expressions in `check_incoming_invoice` and `check_outgoing_invoice`:
0 = Open, 1 = Settled, 2 = Canceled, 3 = Accepted. -/
def lnd_state_map (state : Nat) : Except String InvoiceStatus :=
  match state with
  | 0 => .ok .Unpaid
  | 1 => .ok .Paid
  | 2 => .ok .Unpaid
  | 3 => .ok .Unpaid
  | _ => .error "Unkown state"

/-- A payment record of LND's `ListPayments` response. -/
structure Payment where
  payment_hash : String
  status : Nat
deriving DecidableEq, Repr

/-- `LndClient::check_outgoing_invoice`, over the node's payment ledger:
the request carries `max_payments: 1000, index_offset: 0, reversed: false`,
so the response lists the first 1000 payments; the code then filters by
payment hash, errors unless exactly one record matches, and normalizes that
record's status. -/
def check_outgoing_invoice (payments : List Payment)
    (payment_hash : String) : Except String InvoiceStatus :=
  let listed := payments.take 1000
  let invoice := listed.filter (fun p => p.payment_hash == payment_hash)
  if invoice.length ≠ 1 then .error "Could not find invoice"
  else
    match invoice.head? with
    | some invoice => lnd_state_map invoice.status
    | none => .error "Checked len is one"

/-! ## Invoice creation amounts (src/ln_client/cln_client.rs 268-300,
src/lnd_client.rs 154-171) -/

/-- CLN's `AmountOrAny` request amount: a fixed msat amount or "any". -/
inductive AmountOrAny where
  | amount (msat : Nat)
  | any
deriving DecidableEq, Repr

/-- `cln_rpc::primitives::Amount::from_sat`: `msat = 1000 * sat` in u64. -/
def amount_from_sat (sat : Nat) : Nat :=
  (1000 * sat) % 2 ^ 64

/-- The `amount_msat` field `ClnClient::create_invoice` puts in its
`InvoiceRequest`: `Some(amount) => AmountOrAny::Amount(Amount::from_sat(amount)),
None => AmountOrAny::Any`. -/
def cln_invoice_amount (amount_sat : Option Nat) : AmountOrAny :=
  match amount_sat with
  | some amount => .amount (amount_from_sat amount)
  | none => .any

/-- Reinterpret a u64 value as an i64, as Rust's `as i64` cast does. -/
def u64_as_i64 (n : Nat) : Int :=
  if n % 2 ^ 64 < 2 ^ 63 then ((n % 2 ^ 64 : Nat) : Int)
  else ((n % 2 ^ 64 : Nat) : Int) - 2 ^ 64

/-- The `value_msat` field `LndClient::create_invoice` puts in its request:
`(amount * 1_000) as i64` with `amount : u64`. -/
def lnd_invoice_value_msat (amount : Nat) : Int :=
  u64_as_i64 ((amount * 1000) % 2 ^ 64)

/-! ## Lemmas about the polling loop -/

/-- If every attempt from `count` up to 99 fails, the loop times out having
slept 2 seconds per remaining attempt. -/
lemma wait_from_timeout (check : Nat → Bool) :
    ∀ n count, count + n = 100 →
      (∀ i, count ≤ i → i < 100 → check i = false) →
      wait_from check count = (none, 2 * n) := by
  intro n
  induction n with
  | zero =>
    intro count hc _
    rw [wait_from]
    simp [show ¬ count < 100 by omega]
  | succ m ih =>
    intro count hc hfail
    have h1 : count < 100 := by omega
    have h2 : check count = false := hfail count (Nat.le_refl _) h1
    rw [wait_from]
    simp only [h1, if_true, h2, Bool.false_eq_true, if_false]
    rw [ih (count + 1) (by omega) (fun i hi hlt => hfail i (by omega) hlt)]
    rfl

/-- If attempt `i < 100` is the first successful one, the loop entered at
`count ≤ i` (all attempts in between failing) returns `some i` having slept
2 seconds per failed attempt. -/
lemma wait_from_success (check : Nat → Bool) :
    ∀ d i count, count + d = i → i < 100 → check i = true →
      (∀ j, count ≤ j → j < i → check j = false) →
      wait_from check count = (some i, 2 * d) := by
  intro d
  induction d with
  | zero =>
    intro i count hci hi hcheck _
    have hcount : count = i := by omega
    subst hcount
    rw [wait_from]
    simp [show count < 100 by omega, hcheck]
  | succ m ih =>
    intro i count hci hi hcheck hfail
    have h1 : count < 100 := by omega
    have h2 : check count = false := hfail count (Nat.le_refl _) (by omega)
    rw [wait_from]
    simp only [h1, if_true, h2, Bool.false_eq_true, if_false]
    rw [ih i (count + 1) (by omega) hi hcheck
      (fun j hj hjlt => hfail j (by omega) hjlt)]
    rfl

/-- C3: every wait loop (wait_chain_sync, wait_channels_active, both
backends share the body `wait_poll`) returns success at the first attempt
whose check holds — immediately, with no sleep, when the first check holds;
a success happens at an attempt index below 100 with 2 seconds of delay per
preceding failed attempt; and when all 100 attempts fail, the loop returns
the timeout (`none`) after exactly 100 failed attempts and 200 seconds of
delay. -/
theorem wait_poll_bounds :
    ∀ check : Nat → Bool,
      (check 0 = true → wait_poll check = (some 0, 0))
      ∧ (∀ i, i < 100 → check i = true → (∀ j, j < i → check j = false) →
          wait_poll check = (some i, 2 * i))
      ∧ ((∀ i, i < 100 → check i = false) → wait_poll check = (none, 200)) := by
  intro check
  refine ⟨?_, ?_, ?_⟩
  · intro h0
    have h := wait_from_success check 0 0 0 rfl (by omega) h0
      (fun j _ hj => absurd hj (by omega))
    simpa [wait_poll] using h
  · intro i hi hc hprev
    have h := wait_from_success check i i 0 (by omega) hi hc
      (fun j _ hj => hprev j hj)
    simpa [wait_poll] using h
  · intro hall
    have h := wait_from_timeout check 100 0 rfl (fun i _ hi => hall i hi)
    simpa [wait_poll] using h

/-- Witness for C3: a check that always fails times out at (none, 200); a
check first succeeding at attempt 3 yields (some 3, 6). -/
theorem wait_poll_bounds_witness :
    wait_poll (fun _ => false) = (none, 200)
    ∧ wait_poll (fun i => decide (i = 3)) = (some 3, 6) :=
  ⟨(wait_poll_bounds (fun _ => false)).2.2 (fun _ _ => rfl),
   (wait_poll_bounds (fun i => decide (i = 3))).2.1 3 (by omega) (by decide)
     (fun j hj => by simp only [decide_eq_false_iff_not]; omega)⟩

/-- C1: the per-attempt success condition of `ClnClient::wait_chain_sync`
uses `||` where the spec requires both warnings absent: on a get-info
response with no lightningd-sync warning but an outstanding bitcoind-sync
warning, the code's check succeeds (the loop reports chain sync complete)
while the spec's both-absent predicate is false. -/
theorem wait_chain_sync_check_or_slip :
    cln_chain_sync_check
      { warning_lightningd_sync := none,
        warning_bitcoind_sync := some "Still loading latest blocks from bitcoind." }
      = true
    ∧ chain_sync_check_spec
      { warning_lightningd_sync := none,
        warning_bitcoind_sync := some "Still loading latest blocks from bitcoind." }
      = false :=
  ⟨rfl, rfl⟩

/-- C7: the per-attempt success condition of `wait_channels_active` holds
exactly when the reported channel set is empty or every channel in it is
active. -/
theorem channels_active_check_iff :
    ∀ channels : List ListchannelsChannel,
      channels_active_check channels = true ↔
        (channels = [] ∨ ∀ c ∈ channels, c.active = true) := by
  intro channels
  unfold channels_active_check channels_pending
  rw [List.isEmpty_iff, List.filter_eq_nil_iff]
  constructor
  · intro hall
    right
    intro c hc
    have := hall c hc
    simpa using this
  · intro hcases c hc
    rcases hcases with hnil | hact
    · subst hnil
      simp at hc
    · simp [hact c hc]

/-! ## Lemmas about the balance aggregation -/

/-- When no u64 overflow occurs, the wrapped balance fold computes the
mathematical sums: the first accumulator component (`on_chain_total`)
collects the amounts of all non-SPENT outputs and the second
(`on_chain_spendable`) collects the CONFIRMED amounts. -/
lemma foldl_balanceStep_eq_sums :
    ∀ (outputs : List ListfundsOutput) (acc : Nat × Nat),
      acc.2 ≤ acc.1 → acc.1 + total_msat outputs < 2 ^ 64 →
      (outputs.foldl balanceStep acc).1 = acc.1 + total_msat outputs
      ∧ (outputs.foldl balanceStep acc).2 = acc.2 + confirmed_msat outputs := by
  intro outputs
  induction outputs with
  | nil =>
    intro acc hle hb
    simp [total_msat, confirmed_msat]
  | cons o os ih =>
    intro acc hle hb
    cases ho : o.status
    case UNCONFIRMED =>
      have htot : total_msat (o :: os) = o.amount_msat + total_msat os := by
        simp [total_msat, List.filter_cons, ho]
      have hconf : confirmed_msat (o :: os) = confirmed_msat os := by
        simp [confirmed_msat, List.filter_cons, ho]
      rw [htot] at hb
      have hmod : (acc.1 + o.amount_msat) % 2 ^ 64 = acc.1 + o.amount_msat :=
        Nat.mod_eq_of_lt (by omega)
      have hstep : balanceStep acc o = (acc.1 + o.amount_msat, acc.2) := by
        simp only [balanceStep, ho, hmod]
      obtain ⟨h1, h2⟩ := ih (acc.1 + o.amount_msat, acc.2)
        (show acc.2 ≤ acc.1 + o.amount_msat by omega)
        (show acc.1 + o.amount_msat + total_msat os < 2 ^ 64 by omega)
      simp only [] at h1 h2
      rw [List.foldl_cons, hstep, htot, hconf]
      exact ⟨by omega, by omega⟩
    case IMMATURE =>
      have htot : total_msat (o :: os) = o.amount_msat + total_msat os := by
        simp [total_msat, List.filter_cons, ho]
      have hconf : confirmed_msat (o :: os) = confirmed_msat os := by
        simp [confirmed_msat, List.filter_cons, ho]
      rw [htot] at hb
      have hmod : (acc.1 + o.amount_msat) % 2 ^ 64 = acc.1 + o.amount_msat :=
        Nat.mod_eq_of_lt (by omega)
      have hstep : balanceStep acc o = (acc.1 + o.amount_msat, acc.2) := by
        simp only [balanceStep, ho, hmod]
      obtain ⟨h1, h2⟩ := ih (acc.1 + o.amount_msat, acc.2)
        (show acc.2 ≤ acc.1 + o.amount_msat by omega)
        (show acc.1 + o.amount_msat + total_msat os < 2 ^ 64 by omega)
      rw [List.foldl_cons, hstep, htot, hconf]
      exact ⟨by omega, by omega⟩
    case CONFIRMED =>
      have htot : total_msat (o :: os) = o.amount_msat + total_msat os := by
        simp [total_msat, List.filter_cons, ho]
      have hconf : confirmed_msat (o :: os)
          = o.amount_msat + confirmed_msat os := by
        simp [confirmed_msat, List.filter_cons, ho]
      rw [htot] at hb
      have hmod1 : (acc.1 + o.amount_msat) % 2 ^ 64 = acc.1 + o.amount_msat :=
        Nat.mod_eq_of_lt (by omega)
      have hmod2 : (acc.2 + o.amount_msat) % 2 ^ 64 = acc.2 + o.amount_msat :=
        Nat.mod_eq_of_lt (by omega)
      have hstep : balanceStep acc o
          = (acc.1 + o.amount_msat, acc.2 + o.amount_msat) := by
        simp only [balanceStep, ho, hmod1, hmod2]
      obtain ⟨h1, h2⟩ := ih (acc.1 + o.amount_msat, acc.2 + o.amount_msat)
        (show acc.2 + o.amount_msat ≤ acc.1 + o.amount_msat by omega)
        (show acc.1 + o.amount_msat + total_msat os < 2 ^ 64 by omega)
      rw [List.foldl_cons, hstep, htot, hconf]
      exact ⟨by omega, by omega⟩
    case SPENT =>
      have htot : total_msat (o :: os) = total_msat os := by
        simp [total_msat, List.filter_cons, ho]
      have hconf : confirmed_msat (o :: os) = confirmed_msat os := by
        simp [confirmed_msat, List.filter_cons, ho]
      rw [htot] at hb
      have hstep : balanceStep acc o = acc := by simp [balanceStep, ho]
      rw [List.foldl_cons, hstep, htot, hconf]
      exact ih acc hle hb

/-- When no u64 overflow occurs, the wrapped channel fold computes the
mathematical sum of the channels' `our_amount_msat` values. -/
lemma foldl_channels_eq_sum :
    ∀ (channels : List ListfundsChannel) (a : Nat),
      a + (channels.map (fun c => c.our_amount_msat)).sum < 2 ^ 64 →
      channels.foldl (fun a c => (a + c.our_amount_msat) % 2 ^ 64) a
        = a + (channels.map (fun c => c.our_amount_msat)).sum := by
  intro channels
  induction channels with
  | nil => intro a ha; simp
  | cons c cs ih =>
    intro a ha
    simp only [List.foldl_cons, List.map_cons, List.sum_cons] at ha ⊢
    rw [Nat.mod_eq_of_lt (show a + c.our_amount_msat < 2 ^ 64 by omega)]
    rw [ih (a + c.our_amount_msat) (by omega)]
    omega

/-- The confirmed-amount sum never exceeds the non-spent-amount sum. -/
lemma confirmed_le_total_msat :
    ∀ outputs : List ListfundsOutput,
      confirmed_msat outputs ≤ total_msat outputs := by
  intro outputs
  induction outputs with
  | nil => simp [total_msat, confirmed_msat]
  | cons o os ih =>
    cases ho : o.status
    case UNCONFIRMED =>
      have htot : total_msat (o :: os) = o.amount_msat + total_msat os := by
        simp [total_msat, List.filter_cons, ho]
      have hconf : confirmed_msat (o :: os) = confirmed_msat os := by
        simp [confirmed_msat, List.filter_cons, ho]
      omega
    case IMMATURE =>
      have htot : total_msat (o :: os) = o.amount_msat + total_msat os := by
        simp [total_msat, List.filter_cons, ho]
      have hconf : confirmed_msat (o :: os) = confirmed_msat os := by
        simp [confirmed_msat, List.filter_cons, ho]
      omega
    case CONFIRMED =>
      have htot : total_msat (o :: os) = o.amount_msat + total_msat os := by
        simp [total_msat, List.filter_cons, ho]
      have hconf : confirmed_msat (o :: os)
          = o.amount_msat + confirmed_msat os := by
        simp [confirmed_msat, List.filter_cons, ho]
      omega
    case SPENT =>
      have htot : total_msat (o :: os) = total_msat os := by
        simp [total_msat, List.filter_cons, ho]
      have hconf : confirmed_msat (o :: os) = confirmed_msat os := by
        simp [confirmed_msat, List.filter_cons, ho]
      omega

/-- C4: when the aggregation does not overflow u64 (the non-spent amounts
sum below 2^64, as does the channel sum), the balance adds Unconfirmed and
Immature amounts to on_chain_total only, Confirmed amounts to both
on_chain_total and on_chain_spendable, Spent amounts to neither, and sums
the channel amounts into ln; in particular one Confirmed(500) and one
Unconfirmed(300) output yield on_chain_spendable 500 and on_chain_total
800. -/
theorem balance_accumulation_rule :
    (∀ (outputs : List ListfundsOutput) (channels : List ListfundsChannel),
      total_msat outputs < 2 ^ 64 →
      (channels.map (fun c => c.our_amount_msat)).sum < 2 ^ 64 →
      (balance outputs channels).on_chain_total = total_msat outputs
      ∧ (balance outputs channels).on_chain_spendable
          = confirmed_msat outputs
      ∧ (balance outputs channels).ln
          = (channels.map (fun c => c.our_amount_msat)).sum)
    ∧ balance [⟨500, .CONFIRMED⟩, ⟨300, .UNCONFIRMED⟩] []
        = { on_chain_spendable := 500, on_chain_total := 800, ln := 0 } := by
  constructor
  · intro outputs channels h1 h2
    obtain ⟨ht, hs⟩ := foldl_balanceStep_eq_sums outputs (0, 0) (Nat.le_refl 0)
      (show (0 : Nat) + total_msat outputs < 2 ^ 64 by omega)
    have hln := foldl_channels_eq_sum channels 0 (by omega)
    refine ⟨?_, ?_, ?_⟩
    · simp only [balance]
      omega
    · simp only [balance]
      omega
    · simp only [balance]
      omega
  · decide

/-- Witness for C4: the no-overflow accumulation theorem applied at the
Confirmed(500)/Unconfirmed(300) record set with one 42 msat channel. -/
theorem balance_accumulation_rule_witness :
    (balance [⟨500, .CONFIRMED⟩, ⟨300, .UNCONFIRMED⟩]
        [{ our_amount_msat := 42 }]).on_chain_total
      = total_msat [⟨500, .CONFIRMED⟩, ⟨300, .UNCONFIRMED⟩] :=
  (balance_accumulation_rule.1 [⟨500, .CONFIRMED⟩, ⟨300, .UNCONFIRMED⟩]
    [{ our_amount_msat := 42 }] (by decide) (by decide)).1

/-- C5 counterexample: balance aggregation is u64 arithmetic, so it wraps:
the output set [Confirmed(1), Unconfirmed(2^64 - 1)] — each amount a valid
u64 — wraps on_chain_total to 0 while on_chain_spendable is 1, violating
on_chain_spendable ≤ on_chain_total. -/
theorem balance_wrap_overflow_violation :
    ¬ ((balance [⟨1, .CONFIRMED⟩, ⟨2 ^ 64 - 1, .UNCONFIRMED⟩]
          []).on_chain_spendable
        ≤ (balance [⟨1, .CONFIRMED⟩, ⟨2 ^ 64 - 1, .UNCONFIRMED⟩]
          []).on_chain_total) := by
  decide

/-- C5 amended: for every output-record list whose non-spent amounts sum
below 2^64 (no u64 overflow in the aggregation), the computed Balance
satisfies on_chain_spendable ≤ on_chain_total, and all three fields are
non-negative (they are natural numbers, as the source amounts are u64
millisatoshi values). -/
theorem balance_spendable_le_total_no_overflow :
    ∀ (outputs : List ListfundsOutput) (channels : List ListfundsChannel),
      total_msat outputs < 2 ^ 64 →
      (balance outputs channels).on_chain_spendable
          ≤ (balance outputs channels).on_chain_total
      ∧ 0 ≤ (balance outputs channels).on_chain_spendable
      ∧ 0 ≤ (balance outputs channels).on_chain_total
      ∧ 0 ≤ (balance outputs channels).ln := by
  intro outputs channels hb
  refine ⟨?_, Nat.zero_le _, Nat.zero_le _, Nat.zero_le _⟩
  obtain ⟨ht, hs⟩ := foldl_balanceStep_eq_sums outputs (0, 0) (Nat.le_refl 0)
    (show (0 : Nat) + total_msat outputs < 2 ^ 64 by omega)
  have hc := confirmed_le_total_msat outputs
  simp only [balance]
  omega

/-- Witness for C5's amended theorem at a concrete small record set. -/
theorem balance_spendable_le_total_no_overflow_witness :
    (balance [⟨500, .CONFIRMED⟩, ⟨300, .UNCONFIRMED⟩]
        [{ our_amount_msat := 7 }]).on_chain_spendable
      ≤ (balance [⟨500, .CONFIRMED⟩, ⟨300, .UNCONFIRMED⟩]
        [{ our_amount_msat := 7 }]).on_chain_total :=
  (balance_spendable_le_total_no_overflow
    [⟨500, .CONFIRMED⟩, ⟨300, .UNCONFIRMED⟩]
    [{ our_amount_msat := 7 }] (by decide)).1

/-- C6: when CLN's invoice lookup returns no matching invoice record,
check_incoming_payment_status is the hard error "Could not find invoice",
never a fabricated status. -/
theorem incoming_unknown_invoice_is_error :
    check_incoming_payment_status [] = Except.error "Could not find invoice" :=
  rfl

/-- C2 counterexample: on the LND backend, a payment ledger with no record
matching the queried hash makes check_outgoing_invoice return the error
"Could not find invoice", not the status Unpaid — refuting the claim that
both backends map an unknown hash to Unpaid and never an error. -/
theorem lnd_outgoing_unknown_hash_errors :
    check_outgoing_invoice [{ payment_hash := "00", status := 1 }] "ff"
      = Except.error "Could not find invoice" :=
  rfl

/-- C2 amended: on the CLN backend an empty ListPays result maps to
Ok(Unpaid) and check_outgoing_payment_status never returns an error; on the
LND backend a hash with no matching payment record makes
check_outgoing_invoice return the error "Could not find invoice". -/
theorem outgoing_unknown_hash_by_backend :
    (check_outgoing_payment_status [] = Except.ok InvoiceStatus.Unpaid)
    ∧ (∀ pays : List ListpaysPay,
        ∃ s, check_outgoing_payment_status pays = Except.ok s)
    ∧ (∀ (payments : List Payment) (hash : String),
        (∀ p ∈ payments, p.payment_hash ≠ hash) →
        check_outgoing_invoice payments hash
          = Except.error "Could not find invoice") := by
  refine ⟨rfl, fun pays => ⟨_, rfl⟩, ?_⟩
  intro payments hash hnone
  have hfilter :
      (payments.take 1000).filter (fun p => p.payment_hash == hash) = [] := by
    rw [List.filter_eq_nil_iff]
    intro p hp
    simpa using hnone p (List.take_subset 1000 payments hp)
  simp [check_outgoing_invoice, hfilter]

/-- Witness for C2's amended theorem at a concrete LND ledger and hash. -/
theorem outgoing_unknown_hash_by_backend_witness :
    check_outgoing_invoice [{ payment_hash := "aa", status := 1 }] "bb"
      = Except.error "Could not find invoice" :=
  outgoing_unknown_hash_by_backend.2.2
    [{ payment_hash := "aa", status := 1 }] "bb" (by decide)

/-- C8 counterexample: on the LND backend the raw incoming states 0 (Open)
and 2 (Canceled) are distinct yet both normalize to Unpaid, so the
normalization is not one-to-one on both backends. -/
theorem lnd_incoming_status_collision :
    lnd_state_map 0 = lnd_state_map 2 ∧ (0 : Nat) ≠ 2 :=
  ⟨rfl, by decide⟩

/-- C8 amended: on the CLN backend the three raw incoming statuses map
one-to-one (unpaid to Unpaid, expired to Expired, paid to Paid); on the LND
backend Settled (1) maps to Paid while Open (0), Canceled (2) and Accepted
(3) all map to Unpaid, so distinct raw states share a canonical value and
Expired is never produced. -/
theorem incoming_status_map_by_backend :
    (cln_incoming_status_map .UNPAID = .Unpaid
      ∧ cln_incoming_status_map .EXPIRED = .Expired
      ∧ cln_incoming_status_map .PAID = .Paid)
    ∧ (∀ a b, cln_incoming_status_map a = cln_incoming_status_map b → a = b)
    ∧ (lnd_state_map 0 = Except.ok InvoiceStatus.Unpaid
      ∧ lnd_state_map 1 = Except.ok InvoiceStatus.Paid
      ∧ lnd_state_map 2 = Except.ok InvoiceStatus.Unpaid
      ∧ lnd_state_map 3 = Except.ok InvoiceStatus.Unpaid
      ∧ ∀ s, lnd_state_map s ≠ Except.ok InvoiceStatus.Expired) := by
  refine ⟨⟨rfl, rfl, rfl⟩, ?_, rfl, rfl, rfl, rfl, ?_⟩
  · intro a b
    cases a <;> cases b <;> simp [cln_incoming_status_map]
  · intro s hs
    rcases s with _ | _ | _ | _ | k <;> simp [lnd_state_map] at hs

/-- Witness for C8's amended theorem: the CLN injectivity part applied at a
concrete pair of raw statuses. -/
theorem incoming_status_map_by_backend_witness :
    ListinvoicesInvoicesStatus.PAID = ListinvoicesInvoicesStatus.PAID :=
  incoming_status_map_by_backend.2.1 .PAID .PAID rfl

/-- C9: CLN's create_invoice sends the distinct any-amount variant when
amount_sat is None (never a zero amount), and Amount::from_sat(x) = 1000*x
msat when no u64 overflow occurs; LND's create_invoice sends
value_msat = x * 1000 when the product fits in i64. -/
theorem create_invoice_amount_rule :
    (cln_invoice_amount none = AmountOrAny.any)
    ∧ (∀ msat, cln_invoice_amount none ≠ AmountOrAny.amount msat)
    ∧ (∀ x, 1000 * x < 2 ^ 64 →
        cln_invoice_amount (some x) = AmountOrAny.amount (1000 * x))
    ∧ (∀ x, x * 1000 < 2 ^ 63 →
        lnd_invoice_value_msat x = (x * 1000 : Int)) := by
  refine ⟨rfl, fun msat h => AmountOrAny.noConfusion h, ?_, ?_⟩
  · intro x hx
    show AmountOrAny.amount ((1000 * x) % 2 ^ 64) = AmountOrAny.amount (1000 * x)
    rw [Nat.mod_eq_of_lt hx]
  · intro x hx
    have h64 : x * 1000 < 2 ^ 64 := Nat.lt_of_lt_of_le hx (by norm_num)
    unfold lnd_invoice_value_msat u64_as_i64
    rw [Nat.mod_eq_of_lt h64, Nat.mod_eq_of_lt h64, if_pos hx]
    push_cast
    rfl

/-- Witness for C9 at amount 5 sat: CLN requests 5000 msat, LND requests
value_msat 5000. -/
theorem create_invoice_amount_rule_witness :
    cln_invoice_amount (some 5) = AmountOrAny.amount 5000
    ∧ lnd_invoice_value_msat 5 = 5000 := by
  constructor
  · have h := create_invoice_amount_rule.2.2.1 5 (by norm_num)
    norm_num at h
    exact h
  · have h := create_invoice_amount_rule.2.2.2 5 (by norm_num)
    norm_num at h
    exact h

/-- C10: LND's check_outgoing_invoice depends only on the first 1000 listed
payments; when the number of matching records among them is not exactly one
(zero matches or duplicates) it returns the error "Could not find invoice";
and when exactly one record matches it returns that record's normalized
status. -/
theorem lnd_check_outgoing_rule :
    ∀ (payments : List Payment) (hash : String),
      check_outgoing_invoice payments hash
          = check_outgoing_invoice (payments.take 1000) hash
      ∧ (((payments.take 1000).filter
            (fun p => p.payment_hash == hash)).length ≠ 1 →
          check_outgoing_invoice payments hash
            = Except.error "Could not find invoice")
      ∧ (∀ q, (payments.take 1000).filter
            (fun p => p.payment_hash == hash) = [q] →
          check_outgoing_invoice payments hash = lnd_state_map q.status) := by
  intro payments hash
  refine ⟨?_, ?_, ?_⟩
  · simp [check_outgoing_invoice, List.take_take]
  · intro hlen
    simp only [check_outgoing_invoice]
    rw [if_pos hlen]
  · intro q hq
    simp [check_outgoing_invoice, hq]

/-- Witness for C10: a one-record ledger whose single record matches the
hash yields that record's normalized status (Settled = Paid). -/
theorem lnd_check_outgoing_rule_witness :
    check_outgoing_invoice [{ payment_hash := "aa", status := 1 }] "aa"
      = Except.ok InvoiceStatus.Paid := by
  have h := (lnd_check_outgoing_rule
      [{ payment_hash := "aa", status := 1 }] "aa").2.2
      { payment_hash := "aa", status := 1 } (by decide)
  exact h.trans rfl

end LnRegtest
